import Mathlib

/-!
Verification of the inlet/outlet particle-lifecycle subsystem of
`examples/trivial_inlet_outlet.py`.

The example script under `src/` configures a `SimpleInlet` and a
`SimpleOutlet` over three particle collections (`inlet`, `fluid`,
`outlet`).  The core `SimpleInlet`/`SimpleOutlet` implementation
(`pysph.sph.simple_inlet_outlet`) is not part of the sources here, so
those operations are modelled from the specification; the example's
`create_particles` / `create_inlet_outlet` functions are embedded
directly from the source.  Machine floats are modelled by exact
rationals, NumPy arrays of per-particle attributes by lists of particle
records.
-/

namespace InletOutlet

/-- A 2D vector of exact rationals (the example is a 2D simulation). -/
structure Vec where
  x : ℚ
  y : ℚ
deriving DecidableEq

/-- The per-particle attribute record: position, velocity, mass,
smoothing length and density, as in the spec's data model. -/
structure Attrs where
  pos : Vec
  vel : Vec
  m : ℚ
  h : ℚ
  rho : ℚ
deriving DecidableEq

/-- A particle: a stable identifier together with its attribute record.
The role (`inlet`/`fluid`/`outlet`) is a property of the collection a
particle currently belongs to, not stored per particle. -/
structure Particle where
  id : ℕ
  attrs : Attrs
deriving DecidableEq

/-- A coordinate axis of the 2D domain. -/
inductive Axis where
  | x
  | y
deriving DecidableEq

/-- An axis-aligned box used purely for membership tests. -/
structure Region where
  xmin : ℚ
  xmax : ℚ
  ymin : ℚ
  ymax : ℚ
deriving DecidableEq

/-- The coordinate of a vector along a given axis. -/
def Vec.coord (v : Vec) : Axis → ℚ
  | .x => v.x
  | .y => v.y

/-- Replace the coordinate of a vector along a given axis. -/
def Vec.setCoord (v : Vec) (a : Axis) (q : ℚ) : Vec :=
  match a with
  | .x => { v with x := q }
  | .y => { v with y := q }

/-- The lower bound of a region along a given axis. -/
def Region.lo (r : Region) : Axis → ℚ
  | .x => r.xmin
  | .y => r.ymin

/-- The upper bound of a region along a given axis. -/
def Region.hi (r : Region) : Axis → ℚ
  | .x => r.xmax
  | .y => r.ymax

/-- Translate an attribute record by `d` along axis `a`; every other
attribute (off-axis coordinate, velocity, mass, smoothing length,
density) is unchanged. -/
def Attrs.shiftAxis (t : Attrs) (a : Axis) (d : ℚ) : Attrs :=
  { t with pos := t.pos.setCoord a (t.pos.coord a + d) }

/-- The configuration error raised when an inlet or outlet is
constructed from a malformed configuration. -/
inductive ConfigError where
  | configurationError
deriving DecidableEq

/-- Modelled from the spec: the inlet entity (`SimpleInlet` is not in
the sources).  It owns the template pattern, the region, the inflow
axis, the layer spacing and the replica count. -/
structure Inlet where
  template : List Attrs
  region : Region
  axis : Axis
  spacing : ℚ
  n : ℕ

/-- Modelled from the spec: the outlet entity (`SimpleOutlet` is not in
the sources).  It owns the capture region and the outflow axis. -/
structure Outlet where
  region : Region
  axis : Axis

/-- Modelled from the spec: validated construction of an inlet.  Fails
with `ConfigurationError` exactly when the replica count is zero, the
spacing is non-positive, the template is empty, or the region has zero
or negative extent. -/
def mkInlet (tmpl : List Attrs) (a : Axis) (d : ℚ) (n : ℕ) (r : Region) :
    Except ConfigError Inlet :=
  if n < 1 ∨ d ≤ 0 ∨ tmpl = [] ∨ ¬(r.xmin < r.xmax ∧ r.ymin < r.ymax) then
    .error .configurationError
  else
    .ok ⟨tmpl, r, a, d, n⟩

/-- Modelled from the spec: validated construction of an outlet.  Fails
with `ConfigurationError` exactly when the region has zero or negative
extent. -/
def mkOutlet (a : Axis) (r : Region) : Except ConfigError Outlet :=
  if ¬(r.xmin < r.xmax ∧ r.ymin < r.ymax) then
    .error .configurationError
  else
    .ok ⟨r, a⟩

/-- Whether an `Except` result is a success. -/
def isOk {ε α : Type} : Except ε α → Bool
  | .ok _ => true
  | .error _ => false

/-- The shared role-transfer primitive, modelled from the spec (§4.3):
the records selected by `cond` (the characteristic predicate of the
selected index set) are appended to the destination in their original
relative order and removed from the source.  The operation is a single
pure function producing both resulting collections at once, so in this
single-threaded model no partially transferred state exists. -/
def transfer (cond : Particle → Bool) (src dst : List Particle) :
    List Particle × List Particle :=
  (src.filter (fun p => !(cond p)), dst ++ src.filter cond)

/-- Modelled from the spec: the inlet promotion decision.  A particle
has crossed the inlet's downstream boundary when its position along the
inflow axis is at or past the region's max bound on that axis
(closed-on-exit). -/
def crossedB (I : Inlet) (p : Particle) : Bool :=
  decide (I.region.hi I.axis ≤ p.attrs.pos.coord I.axis)

/-- Modelled from the spec: the outlet capture decision.  A particle is
inside the outlet region when all its coordinates are within the
region's bounds. -/
def inRegionB (O : Outlet) (p : Particle) : Bool :=
  decide (O.region.xmin ≤ p.attrs.pos.x ∧ p.attrs.pos.x ≤ O.region.xmax ∧
          O.region.ymin ≤ p.attrs.pos.y ∧ p.attrs.pos.y ≤ O.region.ymax)

/-- Modelled from the spec: the outlet deletion decision.  An outlet
particle is deleted once its position along the outflow axis is beyond
the region's outer boundary. -/
def beyondB (O : Outlet) (p : Particle) : Bool :=
  decide (O.region.hi O.axis < p.attrs.pos.coord O.axis)

/-- The simulation state between steps: the three role collections and
the next fresh particle identifier. -/
structure SimState where
  inlet : List Particle
  fluid : List Particle
  outlet : List Particle
  nextId : ℕ
deriving DecidableEq

/-- All particle identifiers across the three collections. -/
def SimState.ids (s : SimState) : List ℕ :=
  (s.inlet ++ s.fluid ++ s.outlet).map Particle.id

/-- Total particle count across the three collections. -/
def SimState.total (s : SimState) : ℕ :=
  s.inlet.length + s.fluid.length + s.outlet.length

/-- Modelled from the spec (§4.1 step 3, §9): re-injection of fresh
template replicas.  Each particle that crossed the downstream boundary
is replaced by a fresh replica at the vacated upstream-most lattice
position, i.e. the crossing replica's position translated back by the
region's extent along the inflow axis (refill-on-vacancy); the replica
receives a fresh identifier. -/
def freshReplicas (I : Inlet) : ℕ → List Particle → List Particle
  | _, [] => []
  | nid, p :: ps =>
      ⟨nid, p.attrs.shiftAxis I.axis (-(I.region.hi I.axis - I.region.lo I.axis))⟩ ::
        freshReplicas I (nid + 1) ps

/-- Modelled from the spec (§4.1): the Inlet Manager's per-step
`update()`.  Every inlet particle at or past the downstream boundary is
converted to fluid via the shared role-transfer primitive, and a fresh
template replica is re-injected for each converted particle. -/
def updateInlet (I : Inlet) (s : SimState) : SimState :=
  let moved := transfer (crossedB I) s.inlet s.fluid
  let crossed := s.inlet.filter (crossedB I)
  { inlet := moved.1 ++ freshReplicas I s.nextId crossed
    fluid := moved.2
    outlet := s.outlet
    nextId := s.nextId + crossed.length }

/-- Modelled from the spec (§4.2): the Outlet Manager's per-step
`update()`.  Fluid particles inside the outlet region are converted to
outlet via the shared role-transfer primitive; outlet particles beyond
the region's outer boundary along the outflow axis are then deleted
outright, compacting the collection. -/
def updateOutlet (O : Outlet) (s : SimState) : SimState :=
  let moved := transfer (inRegionB O) s.fluid s.outlet
  { inlet := s.inlet
    fluid := moved.1
    outlet := moved.2.filter (fun p => !(beyondB O p))
    nextId := s.nextId }

/-- One full step's bookkeeping: inlet processing, then outlet
processing (the fixed order of §5). -/
def stepUpdate (I : Inlet) (O : Outlet) (s : SimState) : SimState :=
  updateOutlet O (updateInlet I s)

/-- Number of fresh replicas injected by the inlet during `updateInlet`
on state `s`. -/
def injectedCount (I : Inlet) (s : SimState) : ℕ :=
  (s.inlet.filter (crossedB I)).length

/-- Number of fluid particles captured by the outlet during
`updateOutlet` on state `s`. -/
def capturedCount (O : Outlet) (s : SimState) : ℕ :=
  (s.fluid.filter (inRegionB O)).length

/-- Number of particles deleted at the outlet's downstream boundary
during `updateOutlet` on state `s`. -/
def deletedCount (O : Outlet) (s : SimState) : ℕ :=
  ((s.outlet ++ s.fluid.filter (inRegionB O)).filter (beyondB O)).length

/-- Modelled from the spec (§4.1 initialization contract): stamp one
replica layer of the template at offset `off` along axis `a`, assigning
consecutive fresh identifiers starting at `bid`. -/
def stampRow (a : Axis) (off : ℚ) : ℕ → List Attrs → List Particle
  | _, [] => []
  | bid, t :: ts => ⟨bid, t.shiftAxis a off⟩ :: stampRow a off (bid + 1) ts

/-- Modelled from the spec (§4.1 initialization contract): the first
`n` replica layers of the inlet's template, layer `i` offset by `i *
spacing` along the negative inflow direction. -/
def initLayers (I : Inlet) (bid : ℕ) : ℕ → List Particle
  | 0 => []
  | n + 1 =>
      initLayers I bid n ++
        stampRow I.axis (-(n * I.spacing)) (bid + n * I.template.length) I.template

/-- Modelled from the spec: the state produced by inlet initialization —
the stacked replicas form the collection of role `inlet`, and the fluid
and outlet collections start empty. -/
def initialInletState (I : Inlet) : SimState :=
  { inlet := initLayers I 0 I.n
    fluid := []
    outlet := []
    nextId := I.n * I.template.length }

/-- The disjointness invariant: no particle identifier appears in more
than one collection (nor twice overall), and every identifier is below
the fresh-identifier counter. -/
def Inv (s : SimState) : Prop :=
  s.ids.Nodup ∧ ∀ i ∈ s.ids, i < s.nextId

instance (s : SimState) : Decidable (Inv s) := by
  unfold Inv
  exact inferInstance

/-- A collection as named by the example's `create_particles`. -/
structure NamedCollection where
  name : String
  particles : List Particle

/-- `numpy.linspace a b n`: `n` evenly spaced rationals from `a` to `b`
inclusive. -/
def linspace (a b : ℚ) (n : ℕ) : List ℚ :=
  (List.range n).map (fun i => a + (b - a) * i / (n - 1))

/-- One row of particles at `x = 0` with the given `y` values, mass and
smoothing length derived from `dx`, density one and velocity `(u, 0)`,
with consecutive identifiers starting at `i` —  the inlet row built by
the example's `create_particles`. -/
def particleRow (dx u : ℚ) : ℕ → List ℚ → List Particle
  | _, [] => []
  | i, yv :: ys =>
      ⟨i, ⟨⟨0, yv⟩, ⟨u, 0⟩, dx, dx * (3 / 2), 1⟩⟩ :: particleRow dx u (i + 1) ys

/-- Embedded from `src/examples/trivial_inlet_outlet.py`
(`create_particles`): empty `fluid` and `outlet` collections, and an
`inlet` collection of 11 particles along the y-axis with `dx = 0.1`,
`u = 0.25`, `m = dx`, `h = dx * 1.5`, `rho = 1`. -/
def create_particles : List NamedCollection :=
  let dx : ℚ := 1 / 10
  let ys := linspace 0 1 11
  [⟨"inlet", particleRow dx (1 / 4) 0 ys⟩, ⟨"fluid", []⟩, ⟨"outlet", []⟩]

/-- Embedded from `src/examples/trivial_inlet_outlet.py`
(`create_inlet_outlet`): the inlet configuration of the example. -/
def exampleInlet (tmpl : List Attrs) : Except ConfigError Inlet :=
  mkInlet tmpl .x (1 / 10) 5 ⟨-(2 / 5), 0, 0, 1⟩

/-- Embedded from `src/examples/trivial_inlet_outlet.py`
(`create_inlet_outlet`): the outlet configuration of the example. -/
def exampleOutlet : Except ConfigError Outlet :=
  mkOutlet .x ⟨1 / 2, 1, 0, 1⟩

/-- The template attribute record of the spec's single-promotion
scenario: one particle at position `(0, 0)` with velocity `0.25` along
`x`, mass `0.1`, smoothing length `0.15`, density `1`. -/
def templateAttrs : Attrs :=
  ⟨⟨0, 0⟩, ⟨1 / 4, 0⟩, 1 / 10, 3 / 20, 1⟩

/-- The inlet of the spec's single-promotion scenario: one template
particle, spacing `0.1`, `n = 1`, axis `x`, region
`[-0.4, 0] × [0, 1]`. -/
def scenInlet : Inlet :=
  ⟨[templateAttrs], ⟨-(2 / 5), 0, 0, 1⟩, .x, 1 / 10, 1⟩

/-- The outlet of the spec's capture-then-removal scenario: region
`[0.5, 1] × [0, 1]`, outflow axis `x`. -/
def scenOutlet : Outlet :=
  ⟨⟨1 / 2, 1, 0, 1⟩, .x⟩

/-- The single-promotion scenario state: the lone inlet replica after
its `x` position has been advanced to the boundary `0`. -/
def scenState : SimState :=
  ⟨[⟨0, templateAttrs⟩], [], [], 1⟩

/-- A sample state with one particle of each role: the inlet replica at
the boundary, a fluid particle at `(0.52, 0.5)` inside the outlet
region, and an outlet particle at `(1.2, 0.5)` past the outer
boundary. -/
def sampleState : SimState :=
  ⟨[⟨0, templateAttrs⟩],
   [⟨1, { templateAttrs with pos := ⟨13 / 25, 1 / 2⟩ }⟩],
   [⟨2, { templateAttrs with pos := ⟨6 / 5, 1 / 2⟩ }⟩], 3⟩

/-! ## Helper lemmas -/

theorem length_filter_partition {α : Type} (cond : α → Bool) (l : List α) :
    (l.filter cond).length + (l.filter (fun p => !(cond p))).length = l.length := by
  have h := List.length_eq_length_filter_add (l := l) cond
  omega

@[simp] theorem updateInlet_inlet (I : Inlet) (s : SimState) :
    (updateInlet I s).inlet =
      s.inlet.filter (fun p => !(crossedB I p)) ++
        freshReplicas I s.nextId (s.inlet.filter (crossedB I)) := rfl

@[simp] theorem updateInlet_fluid (I : Inlet) (s : SimState) :
    (updateInlet I s).fluid = s.fluid ++ s.inlet.filter (crossedB I) := rfl

@[simp] theorem updateInlet_outlet (I : Inlet) (s : SimState) :
    (updateInlet I s).outlet = s.outlet := rfl

@[simp] theorem updateInlet_nextId (I : Inlet) (s : SimState) :
    (updateInlet I s).nextId = s.nextId + (s.inlet.filter (crossedB I)).length := rfl

@[simp] theorem updateOutlet_inlet (O : Outlet) (s : SimState) :
    (updateOutlet O s).inlet = s.inlet := rfl

@[simp] theorem updateOutlet_fluid (O : Outlet) (s : SimState) :
    (updateOutlet O s).fluid = s.fluid.filter (fun p => !(inRegionB O p)) := rfl

@[simp] theorem updateOutlet_outlet (O : Outlet) (s : SimState) :
    (updateOutlet O s).outlet =
      (s.outlet ++ s.fluid.filter (inRegionB O)).filter (fun p => !(beyondB O p)) := rfl

@[simp] theorem updateOutlet_nextId (O : Outlet) (s : SimState) :
    (updateOutlet O s).nextId = s.nextId := rfl

theorem freshReplicas_length (I : Inlet) (l : List Particle) :
    ∀ nid, (freshReplicas I nid l).length = l.length := by
  induction l with
  | nil => intro nid; rfl
  | cons p ps ih => intro nid; simp [freshReplicas, ih]

theorem freshReplicas_map_id (I : Inlet) (l : List Particle) :
    ∀ nid, (freshReplicas I nid l).map Particle.id = List.range' nid l.length := by
  induction l with
  | nil => intro nid; rfl
  | cons p ps ih => intro nid; simp [freshReplicas, ih, List.range']

theorem filter_coe_partition (cond : Particle → Bool) (l : List Particle) :
    (↑(l.filter cond) : Multiset Particle) + ↑(l.filter (fun p => !(cond p))) = ↑l := by
  rw [Multiset.coe_add]
  exact Multiset.coe_eq_coe.mpr (List.filter_append_perm cond l)

theorem updateInlet_perm (I : Inlet) (s : SimState) :
    List.Perm
      ((updateInlet I s).inlet ++ (updateInlet I s).fluid ++ (updateInlet I s).outlet)
      (freshReplicas I s.nextId (s.inlet.filter (crossedB I)) ++
        (s.inlet ++ s.fluid ++ s.outlet)) := by
  rw [← Multiset.coe_eq_coe]
  have h := filter_coe_partition (crossedB I) s.inlet
  simp only [updateInlet_inlet, updateInlet_fluid, updateInlet_outlet, ← Multiset.coe_add]
  rw [← h]
  abel

theorem updateInlet_ids_perm (I : Inlet) (s : SimState) :
    List.Perm (updateInlet I s).ids
      ((freshReplicas I s.nextId (s.inlet.filter (crossedB I))).map Particle.id ++ s.ids) := by
  have h := (updateInlet_perm I s).map Particle.id
  simpa [SimState.ids, List.map_append] using h

theorem updateOutlet_subperm (O : Outlet) (s : SimState) :
    List.Subperm
      ((updateOutlet O s).inlet ++ (updateOutlet O s).fluid ++ (updateOutlet O s).outlet)
      (s.inlet ++ s.fluid ++ s.outlet) := by
  have h1 : List.Sublist
      ((s.outlet ++ s.fluid.filter (inRegionB O)).filter (fun p => !(beyondB O p)))
      (s.outlet ++ s.fluid.filter (inRegionB O)) := List.filter_sublist _
  have h2 := h1.append_left (s.inlet ++ s.fluid.filter (fun p => !(inRegionB O p)))
  have h3 : List.Perm
      (s.inlet ++ s.fluid.filter (fun p => !(inRegionB O p)) ++
        (s.outlet ++ s.fluid.filter (inRegionB O)))
      (s.inlet ++ s.fluid ++ s.outlet) := by
    rw [← Multiset.coe_eq_coe]
    have h := filter_coe_partition (inRegionB O) s.fluid
    simp only [← Multiset.coe_add]
    rw [← h]
    abel
  simp only [updateOutlet_inlet, updateOutlet_fluid, updateOutlet_outlet]
  exact h2.subperm.trans h3.subperm

theorem updateOutlet_ids_subperm (O : Outlet) (s : SimState) :
    List.Subperm (updateOutlet O s).ids s.ids := by
  obtain ⟨m, hm, hs⟩ := updateOutlet_subperm O s
  refine ⟨m.map Particle.id, ?_, ?_⟩
  · have h := hm.map Particle.id
    simpa [SimState.ids, List.map_append] using h
  · have h := hs.map Particle.id
    simpa [SimState.ids, List.map_append] using h

theorem inv_updateInlet (I : Inlet) {s : SimState} (h : Inv s) : Inv (updateInlet I s) := by
  obtain ⟨hnd, hlt⟩ := h
  have hperm := updateInlet_ids_perm I s
  have hF := freshReplicas_map_id I (s.inlet.filter (crossedB I)) s.nextId
  constructor
  · refine (hperm.symm).nodup ?_
    refine List.Nodup.append ?_ hnd ?_
    · rw [hF]
      exact List.nodup_range' _ _ _ (by decide)
    · intro a haF haS
      rw [hF] at haF
      exact absurd (hlt a haS) (not_lt.mpr (List.mem_range'_1.mp haF).1)
  · intro i hi
    have hmem := hperm.subset hi
    rw [updateInlet_nextId]
    rcases List.mem_append.mp hmem with hiF | hiS
    · rw [hF] at hiF
      have := (List.mem_range'_1.mp hiF).2
      omega
    · have := hlt i hiS
      omega

theorem inv_updateOutlet (O : Outlet) {s : SimState} (h : Inv s) : Inv (updateOutlet O s) := by
  obtain ⟨hnd, hlt⟩ := h
  obtain ⟨m, hm, hs⟩ := updateOutlet_ids_subperm O s
  constructor
  · exact hm.nodup (hnd.sublist hs)
  · intro i hi
    rw [updateOutlet_nextId]
    exact hlt i ((updateOutlet_ids_subperm O s).subset hi)

theorem inlet_ids_sublist (s : SimState) :
    List.Sublist (s.inlet.map Particle.id) s.ids := by
  simp only [SimState.ids, List.map_append]
  exact (List.sublist_append_left _ _).trans (List.sublist_append_left _ _)

theorem fluid_ids_sublist (s : SimState) :
    List.Sublist (s.fluid.map Particle.id) s.ids := by
  simp only [SimState.ids, List.map_append]
  exact (List.sublist_append_right _ _).trans (List.sublist_append_left _ _)

theorem outlet_ids_sublist (s : SimState) :
    List.Sublist (s.outlet.map Particle.id) s.ids := by
  simp only [SimState.ids, List.map_append]
  exact List.sublist_append_right _ _

theorem inv_parts {s : SimState} (h : Inv s) :
    (s.inlet.map Particle.id).Nodup ∧ (s.fluid.map Particle.id).Nodup ∧
      (s.outlet.map Particle.id).Nodup ∧
      List.Disjoint (s.inlet.map Particle.id) (s.fluid.map Particle.id) ∧
      List.Disjoint (s.inlet.map Particle.id) (s.outlet.map Particle.id) ∧
      List.Disjoint (s.fluid.map Particle.id) (s.outlet.map Particle.id) := by
  have hnd := h.1
  simp only [SimState.ids, List.map_append, List.nodup_append,
    List.disjoint_append_left] at hnd
  tauto

theorem inv_id_lt {s : SimState} (h : Inv s) {p : Particle} (hp : p ∈ s.inlet) :
    p.id < s.nextId :=
  h.2 p.id ((inlet_ids_sublist s).subset (List.mem_map_of_mem Particle.id hp))

theorem mem_eq_of_nodup_ids {l : List Particle} (hl : (l.map Particle.id).Nodup)
    {p q : Particle} (hp : p ∈ l) (hq : q ∈ l) (hid : p.id = q.id) : p = q :=
  List.inj_on_of_nodup_map hl hp hq hid

theorem inRegion_not_beyond (O : Outlet) (p : Particle)
    (h : inRegionB O p = true) : beyondB O p = false := by
  simp only [inRegionB, decide_eq_true_eq] at h
  obtain ⟨h1, h2, h3, h4⟩ := h
  cases hax : O.axis <;>
    simp only [beyondB, Region.hi, Vec.coord, hax, decide_eq_false_iff_not, not_lt] <;>
    assumption

theorem updateInlet_inlet_length (I : Inlet) (s : SimState) :
    (updateInlet I s).inlet.length = s.inlet.length := by
  have h := length_filter_partition (crossedB I) s.inlet
  simp only [updateInlet_inlet, List.length_append, freshReplicas_length]
  omega

/-! ## Claim theorems -/

/-- C1: across one full step (inlet update then outlet update), the
total particle count over the three collections after, plus the number
of particles deleted at the outlet's downstream boundary that step,
equals the count before plus the number of replicas newly injected by
the inlet that step; and any single role transfer leaves the sum of
source and destination sizes unchanged. -/
theorem step_count_conservation (I : Inlet) (O : Outlet) (s : SimState) :
    (stepUpdate I O s).total + deletedCount O (updateInlet I s) =
      s.total + injectedCount I s ∧
    ∀ (cond : Particle → Bool) (src dst : List Particle),
      (transfer cond src dst).1.length + (transfer cond src dst).2.length =
        src.length + dst.length := by
  constructor
  · have hin := length_filter_partition (crossedB I) s.inlet
    have hfl := length_filter_partition (inRegionB O) (updateInlet I s).fluid
    have hol := length_filter_partition (beyondB O)
      ((updateInlet I s).outlet ++ (updateInlet I s).fluid.filter (inRegionB O))
    simp only [stepUpdate, SimState.total, deletedCount, injectedCount,
      updateOutlet_inlet, updateOutlet_fluid, updateOutlet_outlet,
      updateInlet_inlet, updateInlet_fluid, updateInlet_outlet,
      List.length_append, freshReplicas_length] at *
    omega
  · intro cond src dst
    have h := length_filter_partition cond src
    simp only [transfer, List.length_append]
    omega

/-- C2: the disjointness invariant — no particle identifier appears in
more than one collection (each particle belongs to exactly one
collection), with all identifiers below the fresh-identifier counter —
is preserved by the Inlet Manager's `update()` and by the Outlet
Manager's `update()`. -/
theorem collections_disjoint_invariant (I : Inlet) (O : Outlet) (s : SimState)
    (h : Inv s) : Inv (updateInlet I s) ∧ Inv (updateOutlet O s) :=
  ⟨inv_updateInlet I h, inv_updateOutlet O h⟩

theorem collections_disjoint_invariant_witness :
    Inv sampleState ∧ Inv (updateInlet scenInlet sampleState) ∧
      Inv (updateOutlet scenOutlet sampleState) :=
  ⟨by decide,
   (collections_disjoint_invariant scenInlet scenOutlet sampleState (by decide)).1,
   (collections_disjoint_invariant scenInlet scenOutlet sampleState (by decide)).2⟩

/-- C5: the single-promotion scenario — one template particle at
`(0, 0)`, spacing `0.1`, `n = 1`, axis `x`, region
`xmin = -0.4, xmax = 0` — after the particle's `x` position reaches
`0`, `update()` moves it to the fluid collection (fluid grows by one),
re-injects a fresh replica at `x = -0.4` so the inlet size is
unchanged, and in general repeated updates never deplete the inlet. -/
theorem inlet_single_promotion_scenario :
    (updateInlet scenInlet scenState).inlet.length = scenState.inlet.length ∧
    (updateInlet scenInlet scenState).fluid.length = scenState.fluid.length + 1 ∧
    (updateInlet scenInlet scenState).fluid = [⟨0, templateAttrs⟩] ∧
    (updateInlet scenInlet scenState).inlet =
      [⟨1, { templateAttrs with pos := ⟨-(2 / 5), 0⟩ }⟩] ∧
    ∀ (I : Inlet) (s : SimState) (k : ℕ),
      ((updateInlet I)^[k] s).inlet.length = s.inlet.length := by
  have hc : crossedB scenInlet ⟨0, templateAttrs⟩ = true := by
    norm_num [crossedB, scenInlet, templateAttrs, Region.hi, Vec.coord]
  have hfil : scenState.inlet.filter (crossedB scenInlet) = [⟨0, templateAttrs⟩] := by
    simp [scenState, List.filter_cons, hc]
  have hkept : scenState.inlet.filter (fun p => !(crossedB scenInlet p)) = [] := by
    simp [scenState, List.filter_cons, hc]
  refine ⟨updateInlet_inlet_length scenInlet scenState, ?_, ?_, ?_, ?_⟩
  · simp [updateInlet_fluid, scenState, List.filter_cons, hc]
  · simp [updateInlet_fluid, scenState, List.filter_cons, hc]
  · rw [updateInlet_inlet, hfil, hkept]
    norm_num [freshReplicas, Attrs.shiftAxis, Vec.setCoord, Vec.coord,
      scenInlet, templateAttrs, Region.hi, Region.lo, scenState]
  · intro I s k
    induction k generalizing s with
    | zero => rfl
    | succ k ih =>
        rw [Function.iterate_succ_apply, ih (updateInlet I s), updateInlet_inlet_length]

/-- C8: the shared role-transfer primitive grows the destination and
shrinks the source by exactly the number of moved records, moves the
selected records in their original relative order onto the end of the
destination, and loses or duplicates no record (the combined contents
of source and destination are a permutation of what they were); being a
single pure operation producing both resulting collections at once, no
partially transferred state exists in this sequential model. -/
theorem role_transfer_primitive_exact (cond : Particle → Bool)
    (src dst : List Particle) :
    (transfer cond src dst).2.length = dst.length + (src.filter cond).length ∧
    (transfer cond src dst).1.length + (src.filter cond).length = src.length ∧
    List.Perm ((transfer cond src dst).1 ++ (transfer cond src dst).2) (src ++ dst) ∧
    List.Sublist (src.filter cond) src ∧
    (transfer cond src dst).2.take dst.length = dst ∧
    (transfer cond src dst).2.drop dst.length = src.filter cond := by
  refine ⟨by simp [transfer], ?_, ?_, List.filter_sublist src, ?_, ?_⟩
  · have h := length_filter_partition cond src
    simp only [transfer]
    omega
  · rw [← Multiset.coe_eq_coe]
    have h := filter_coe_partition cond src
    simp only [transfer, ← Multiset.coe_add]
    rw [← h]
    abel
  · show (dst ++ src.filter cond).take dst.length = dst
    exact List.take_left dst _
  · show (dst ++ src.filter cond).drop dst.length = src.filter cond
    exact List.drop_left dst _

/-- C7: construction of an inlet fails with `ConfigurationError`
exactly when `n < 1`, the spacing is non-positive, the template is
empty, or the region has zero or negative extent; construction of an
outlet fails exactly when the region has zero or negative extent; in
particular an outlet with `xmin = 0.6, xmax = 0.5` is rejected, while
the example's well-formed configurations construct successfully. -/
theorem construction_rejects_malformed (tmpl : List Attrs) (a : Axis) (d : ℚ)
    (n : ℕ) (r : Region) :
    (isOk (mkInlet tmpl a d n r) = true ↔
      (1 ≤ n ∧ 0 < d ∧ tmpl ≠ [] ∧ r.xmin < r.xmax ∧ r.ymin < r.ymax)) ∧
    (isOk (mkOutlet a r) = true ↔ (r.xmin < r.xmax ∧ r.ymin < r.ymax)) ∧
    isOk (mkOutlet Axis.x ⟨3 / 5, 1 / 2, 0, 1⟩) = false ∧
    isOk exampleOutlet = true ∧
    ∀ (t : Attrs) (ts : List Attrs), isOk (exampleInlet (t :: ts)) = true := by
  refine ⟨?_, ?_, ?_, ?_, ?_⟩
  · simp only [mkInlet]
    split_ifs with h
    · simp only [isOk, Bool.false_eq_true, false_iff]
      rintro ⟨h1, h2, h3, h4, h5⟩
      rcases h with hh | hh | hh | hh
      · omega
      · linarith
      · exact h3 hh
      · exact hh ⟨h4, h5⟩
    · push_neg at h
      obtain ⟨h1, h2, h3, h4⟩ := h
      simp only [isOk, true_iff]
      exact ⟨by omega, h2, h3, h4.1, h4.2⟩
  · simp only [mkOutlet]
    split_ifs with h
    · exact iff_of_true rfl h
    · refine iff_of_false (by simp [isOk]) ?_
      rintro ⟨h1, h2⟩
      exact absurd h2 (by simpa using mt (fun hy => ⟨h1, hy⟩) h)
  · norm_num [mkOutlet, isOk]
  · norm_num [exampleOutlet, mkOutlet, isOk]
  · intro t ts
    norm_num [exampleInlet, mkInlet, isOk]
    simp

/-- C9: the role-transfer decisions are deterministic functions of the
particle position alone — two particles with the same position receive
the same decisions — a position exactly on the inlet's downstream
boundary yields a definite promotion decision (closed-on-exit), and
`update()` is total: every inlet particle ends up either kept or
promoted, every fluid particle either kept or captured, never lost and
never an error. -/
theorem region_decision_deterministic_and_total (I : Inlet) (O : Outlet)
    (p q : Particle) (hpq : p.attrs.pos = q.attrs.pos) :
    crossedB I p = crossedB I q ∧
    inRegionB O p = inRegionB O q ∧
    beyondB O p = beyondB O q ∧
    (p.attrs.pos.coord I.axis = I.region.hi I.axis → crossedB I p = true) ∧
    (∀ s : SimState, p ∈ s.inlet →
      p ∈ (updateInlet I s).inlet ∨ p ∈ (updateInlet I s).fluid) ∧
    (∀ s : SimState, p ∈ s.fluid →
      p ∈ (updateOutlet O s).fluid ∨ p ∈ (updateOutlet O s).outlet) := by
  refine ⟨by simp only [crossedB, hpq], by simp only [inRegionB, hpq],
    by simp only [beyondB, hpq], ?_, ?_, ?_⟩
  · intro hb
    simp [crossedB, hb]
  · intro s hp
    cases hc : crossedB I p with
    | true =>
        right
        simp only [updateInlet_fluid]
        exact List.mem_append_right _ (List.mem_filter.mpr ⟨hp, hc⟩)
    | false =>
        left
        simp only [updateInlet_inlet]
        exact List.mem_append_left _ (List.mem_filter.mpr ⟨hp, by simp [hc]⟩)
  · intro s hp
    cases hc : inRegionB O p with
    | true =>
        right
        simp only [updateOutlet_outlet]
        refine List.mem_filter.mpr
          ⟨List.mem_append_right _ (List.mem_filter.mpr ⟨hp, hc⟩), ?_⟩
        simp [inRegion_not_beyond O p hc]
    | false =>
        left
        simp only [updateOutlet_fluid]
        exact List.mem_filter.mpr ⟨hp, by simp [hc]⟩

theorem region_decision_witness :
    crossedB scenInlet ⟨0, templateAttrs⟩ =
      crossedB scenInlet ⟨7, { templateAttrs with m := 2 }⟩ :=
  (region_decision_deterministic_and_total scenInlet scenOutlet
    ⟨0, templateAttrs⟩ ⟨7, { templateAttrs with m := 2 }⟩ rfl).1

/-- C3: during the Inlet Manager's `update()`, an inlet particle whose
position along the inflow axis is at or past the region's max bound —
including one exactly on the boundary (closed-on-exit) — is moved to
the fluid collection (appearing there exactly once) and removed from
the inlet collection; a particle that has not reached the bound stays
in the inlet and is never added to the fluid, and the decision depends
only on the coordinate along the configured axis. -/
theorem inlet_promotion_closed_on_exit (I : Inlet) (s : SimState) (p : Particle)
    (hInv : Inv s) (hp : p ∈ s.inlet) :
    (crossedB I p = true →
      p ∈ (updateInlet I s).fluid ∧
      ((updateInlet I s).fluid.map Particle.id).count p.id = 1 ∧
      p.id ∉ (updateInlet I s).inlet.map Particle.id) ∧
    (crossedB I p = false →
      p ∈ (updateInlet I s).inlet ∧
      p.id ∉ (updateInlet I s).fluid.map Particle.id) ∧
    (p.attrs.pos.coord I.axis = I.region.hi I.axis → crossedB I p = true) ∧
    (∀ q : Particle, q.attrs.pos.coord I.axis = p.attrs.pos.coord I.axis →
      crossedB I q = crossedB I p) := by
  obtain ⟨hndI, hndF, hndO, hdIF, hdIO, hdFO⟩ := inv_parts hInv
  have hidI : p.id ∈ s.inlet.map Particle.id := List.mem_map_of_mem Particle.id hp
  refine ⟨?_, ?_, ?_, ?_⟩
  · intro hc
    have hpC : p ∈ s.inlet.filter (crossedB I) := List.mem_filter.mpr ⟨hp, hc⟩
    have hndC : ((s.inlet.filter (crossedB I)).map Particle.id).Nodup :=
      hndI.sublist ((List.filter_sublist s.inlet).map Particle.id)
    refine ⟨?_, ?_, ?_⟩
    · simp only [updateInlet_fluid]
      exact List.mem_append_right _ hpC
    · simp only [updateInlet_fluid, List.map_append, List.count_append]
      rw [List.count_eq_zero_of_not_mem (hdIF hidI),
        List.count_eq_one_of_mem hndC (List.mem_map_of_mem Particle.id hpC)]
    · simp only [updateInlet_inlet, List.map_append, List.mem_append]
      rintro (hmK | hmF)
      · obtain ⟨q, hqK, hqid⟩ := List.mem_map.mp hmK
        have hq : q ∈ s.inlet := List.mem_of_mem_filter hqK
        have hqp : q = p := mem_eq_of_nodup_ids hndI hq hp hqid
        have := (List.mem_filter.mp hqK).2
        rw [hqp, hc] at this
        simp at this
      · rw [freshReplicas_map_id] at hmF
        have := (List.mem_range'_1.mp hmF).1
        have := inv_id_lt hInv hp
        omega
  · intro hc
    refine ⟨?_, ?_⟩
    · simp only [updateInlet_inlet]
      exact List.mem_append_left _ (List.mem_filter.mpr ⟨hp, by simp [hc]⟩)
    · simp only [updateInlet_fluid, List.map_append, List.mem_append]
      rintro (hmF | hmC)
      · exact hdIF hidI hmF
      · obtain ⟨q, hqC, hqid⟩ := List.mem_map.mp hmC
        have hq : q ∈ s.inlet := List.mem_of_mem_filter hqC
        have hqp : q = p := mem_eq_of_nodup_ids hndI hq hp hqid
        have := (List.mem_filter.mp hqC).2
        rw [hqp, hc] at this
        exact absurd this (by simp)
  · intro hb
    simp [crossedB, hb]
  · intro q hq
    simp only [crossedB, hq]

theorem inlet_promotion_witness :
    ⟨0, templateAttrs⟩ ∈ (updateInlet scenInlet sampleState).fluid :=
  ((inlet_promotion_closed_on_exit scenInlet sampleState ⟨0, templateAttrs⟩
    (by decide) (by simp [sampleState])).1
    (by norm_num [crossedB, scenInlet, templateAttrs, Region.hi, Vec.coord])).1

/-- C4: during the Outlet Manager's `update()`, a fluid particle whose
coordinates all lie within the outlet region is moved to the outlet
collection (appearing there exactly once, so it converts at most once
per step) and removed from the fluid collection; an outlet particle
beyond the region's outer boundary along the outflow axis is deleted
from all collections with no compensating increase elsewhere; the
resulting outlet collection is compacted (its size is exactly the sum
of survivors and captures) and contains no particle beyond the
boundary. -/
theorem outlet_capture_and_removal (O : Outlet) (s : SimState) (hInv : Inv s) :
    (∀ p ∈ s.fluid, inRegionB O p = true →
      p ∈ (updateOutlet O s).outlet ∧
      ((updateOutlet O s).outlet.map Particle.id).count p.id = 1 ∧
      p.id ∉ (updateOutlet O s).fluid.map Particle.id) ∧
    (∀ q ∈ s.outlet, beyondB O q = true →
      q.id ∉ (updateOutlet O s).outlet.map Particle.id ∧
      q.id ∉ (updateOutlet O s).fluid.map Particle.id ∧
      q.id ∉ (updateOutlet O s).inlet.map Particle.id) ∧
    ((updateOutlet O s).outlet.length + deletedCount O s =
      s.outlet.length + capturedCount O s) ∧
    (∀ r ∈ (updateOutlet O s).outlet, beyondB O r = false) := by
  obtain ⟨hndI, hndF, hndO, hdIF, hdIO, hdFO⟩ := inv_parts hInv
  have hndC : ((s.fluid.filter (inRegionB O)).map Particle.id).Nodup :=
    hndF.sublist ((List.filter_sublist s.fluid).map Particle.id)
  have hndOC : ((s.outlet ++ s.fluid.filter (inRegionB O)).map Particle.id).Nodup := by
    rw [List.map_append]
    refine List.Nodup.append hndO hndC ?_
    intro a haO haC
    have haF : a ∈ s.fluid.map Particle.id :=
      (((List.filter_sublist s.fluid).map Particle.id).subset) haC
    exact hdFO haF haO
  have hndOut : ((updateOutlet O s).outlet.map Particle.id).Nodup := by
    simp only [updateOutlet_outlet]
    exact hndOC.sublist ((List.filter_sublist _).map Particle.id)
  refine ⟨?_, ?_, ?_, ?_⟩
  · intro p hpF hin
    have hpC : p ∈ s.fluid.filter (inRegionB O) := List.mem_filter.mpr ⟨hpF, hin⟩
    have hpOut : p ∈ (updateOutlet O s).outlet := by
      simp only [updateOutlet_outlet]
      refine List.mem_filter.mpr ⟨List.mem_append_right _ hpC, ?_⟩
      simp [inRegion_not_beyond O p hin]
    refine ⟨hpOut, ?_, ?_⟩
    · exact List.count_eq_one_of_mem hndOut (List.mem_map_of_mem Particle.id hpOut)
    · simp only [updateOutlet_fluid]
      intro hmem
      obtain ⟨q, hqK, hqid⟩ := List.mem_map.mp hmem
      have hq : q ∈ s.fluid := List.mem_of_mem_filter hqK
      have hqp : q = p := mem_eq_of_nodup_ids hndF hq hpF hqid
      have := (List.mem_filter.mp hqK).2
      rw [hqp, hin] at this
      exact absurd this (by simp)
  · intro q hqO hb
    have hidO : q.id ∈ s.outlet.map Particle.id := List.mem_map_of_mem Particle.id hqO
    refine ⟨?_, ?_, ?_⟩
    · simp only [updateOutlet_outlet]
      intro hmem
      obtain ⟨r, hrF, hrid⟩ := List.mem_map.mp hmem
      have hrOC : r ∈ s.outlet ++ s.fluid.filter (inRegionB O) :=
        List.mem_of_mem_filter hrF
      have hrb := (List.mem_filter.mp hrF).2
      rcases List.mem_append.mp hrOC with hrO | hrC
      · have hrq : r = q := mem_eq_of_nodup_ids hndO hrO hqO hrid
        rw [hrq, hb] at hrb
        exact absurd hrb (by simp)
      · have : r.id ∈ s.fluid.map Particle.id :=
          List.mem_map_of_mem Particle.id (List.mem_of_mem_filter hrC)
        rw [hrid] at this
        exact hdFO this hidO
    · simp only [updateOutlet_fluid]
      intro hmem
      obtain ⟨r, hrK, hrid⟩ := List.mem_map.mp hmem
      have : r.id ∈ s.fluid.map Particle.id :=
        List.mem_map_of_mem Particle.id (List.mem_of_mem_filter hrK)
      rw [hrid] at this
      exact hdFO this hidO
    · simp only [updateOutlet_inlet]
      intro hmem
      exact hdIO hmem hidO
  · have h := length_filter_partition (beyondB O)
      (s.outlet ++ s.fluid.filter (inRegionB O))
    simp only [updateOutlet_outlet, deletedCount, capturedCount,
      List.length_append] at *
    omega
  · intro r hr
    simp only [updateOutlet_outlet] at hr
    have := (List.mem_filter.mp hr).2
    simpa using this

theorem outlet_capture_witness :
    (⟨1, { templateAttrs with pos := ⟨13 / 25, 1 / 2⟩ }⟩ : Particle) ∈
      (updateOutlet scenOutlet sampleState).outlet :=
  (((outlet_capture_and_removal scenOutlet sampleState (by decide)).1
    ⟨1, { templateAttrs with pos := ⟨13 / 25, 1 / 2⟩ }⟩ (by simp [sampleState])
    (by norm_num [inRegionB, scenOutlet, templateAttrs])).1)

theorem stampRow_length (a : Axis) (off : ℚ) (ts : List Attrs) :
    ∀ bid, (stampRow a off bid ts).length = ts.length := by
  induction ts with
  | nil => intro bid; rfl
  | cons t ts ih => intro bid; simp [stampRow, ih]

theorem stampRow_getElem? (a : Axis) (off : ℚ) (ts : List Attrs) :
    ∀ (bid j : ℕ), (stampRow a off bid ts)[j]? =
      (ts[j]?).map (fun t => (⟨bid + j, t.shiftAxis a off⟩ : Particle)) := by
  induction ts with
  | nil => intro bid j; simp [stampRow]
  | cons t ts ih =>
      intro bid j
      cases j with
      | zero => simp [stampRow]
      | succ j =>
          simp only [stampRow, List.getElem?_cons_succ]
          rw [ih (bid + 1) j]
          have hb : bid + 1 + j = bid + (j + 1) := by omega
          rw [hb]

theorem initLayers_length (I : Inlet) :
    ∀ n bid, (initLayers I bid n).length = n * I.template.length := by
  intro n
  induction n with
  | zero => intro bid; simp [initLayers]
  | succ n ih =>
      intro bid
      simp only [initLayers, List.length_append, ih, stampRow_length]
      rw [Nat.succ_mul]

theorem initLayers_getElem? (I : Inlet) :
    ∀ (n bid i j : ℕ), i < n → j < I.template.length →
      (initLayers I bid n)[i * I.template.length + j]? =
        (I.template[j]?).map
          (fun t => ⟨bid + (i * I.template.length + j),
                     t.shiftAxis I.axis (-(i * I.spacing))⟩) := by
  intro n
  induction n with
  | zero => intro bid i j hi hj; exact absurd hi (Nat.not_lt_zero i)
  | succ n ih =>
      intro bid i j hi hj
      by_cases hin : i < n
      · have hlt : i * I.template.length + j < (initLayers I bid n).length := by
          rw [initLayers_length]
          calc i * I.template.length + j
              < i * I.template.length + I.template.length := by omega
            _ = (i + 1) * I.template.length := (Nat.succ_mul i _).symm
            _ ≤ n * I.template.length := Nat.mul_le_mul_right _ hin
        simp only [initLayers]
        rw [List.getElem?_append_left hlt]
        exact ih bid i j hin hj
      · have hieq : i = n := by omega
        subst hieq
        simp only [initLayers]
        rw [List.getElem?_append_right (by rw [initLayers_length]; omega)]
        rw [initLayers_length]
        have h2 : i * I.template.length + j - i * I.template.length = j := by omega
        rw [h2, stampRow_getElem?]
        have h3 : bid + i * I.template.length + j =
            bid + (i * I.template.length + j) := by omega
        rw [h3]

/-- C6: inlet initialization over a template of `k` particles produces
exactly `n * k` particles forming `n` stacked copies, the particle at
index `i * k + j` being template entry `j` offset by `i * spacing`
along the negative inflow direction; the offset changes only the
coordinate along the inflow axis, every other attribute equals the
template's; all produced particles form the initial collection of role
`inlet` (fluid and outlet start empty). -/
theorem inlet_initialization_stacked_copies (I : Inlet) :
    (initialInletState I).inlet = initLayers I 0 I.n ∧
    (initialInletState I).fluid = [] ∧
    (initialInletState I).outlet = [] ∧
    (initialInletState I).inlet.length = I.n * I.template.length ∧
    (∀ i j : ℕ, i < I.n → j < I.template.length →
      (initLayers I 0 I.n)[i * I.template.length + j]? =
        (I.template[j]?).map
          (fun t => ⟨i * I.template.length + j,
                     t.shiftAxis I.axis (-(i * I.spacing))⟩)) ∧
    (∀ (t : Attrs) (a : Axis) (dd : ℚ),
      (t.shiftAxis a dd).pos.coord a = t.pos.coord a + dd ∧
      (∀ b : Axis, b ≠ a → (t.shiftAxis a dd).pos.coord b = t.pos.coord b) ∧
      (t.shiftAxis a dd).vel = t.vel ∧ (t.shiftAxis a dd).m = t.m ∧
      (t.shiftAxis a dd).h = t.h ∧ (t.shiftAxis a dd).rho = t.rho) := by
  refine ⟨rfl, rfl, rfl, initLayers_length I I.n 0, ?_, ?_⟩
  · intro i j hi hj
    have h := initLayers_getElem? I I.n 0 i j hi hj
    simpa using h
  · intro t a dd
    refine ⟨?_, ?_, rfl, rfl, rfl, rfl⟩
    · cases a <;> simp [Attrs.shiftAxis, Vec.setCoord, Vec.coord]
    · intro b hb
      cases a <;> cases b <;>
        simp_all [Attrs.shiftAxis, Vec.setCoord, Vec.coord]

theorem inlet_initialization_witness :
    (initLayers scenInlet 0 scenInlet.n)[0 * scenInlet.template.length + 0]? =
      (scenInlet.template[0]?).map
        (fun t => ⟨0 * scenInlet.template.length + 0,
                   t.shiftAxis scenInlet.axis (-(0 * scenInlet.spacing))⟩) :=
  (inlet_initialization_stacked_copies scenInlet).2.2.2.2.1 0 0
    (by decide) (by decide)

/-- C10: the example's `create_particles` returns exactly the three
collections named `inlet`, `fluid` and `outlet`; fluid and outlet are
initially empty, and the inlet holds exactly 11 particles with `x = 0`,
`y = i / 10` for `i = 0..10` (evenly spaced from `0` to `1` inclusive),
`u = 0.25`, `v = 0`, `m = 0.1`, `h = 0.15` and `rho = 1`. -/
theorem create_particles_initial_collections :
    create_particles.map NamedCollection.name = ["inlet", "fluid", "outlet"] ∧
    create_particles.map (fun c => c.particles.length) = [11, 0, 0] ∧
    ∀ i : ℕ, i < 11 →
      (create_particles.map NamedCollection.particles)[0]?.bind (fun l => l[i]?) =
        some ⟨i, ⟨⟨0, (i : ℚ) / 10⟩, ⟨1 / 4, 0⟩, 1 / 10, 3 / 20, 1⟩⟩ := by
  refine ⟨rfl, by simp [create_particles, particleRow, linspace, List.range_succ], ?_⟩
  intro i hi
  interval_cases i <;>
    norm_num [create_particles, particleRow, linspace, List.range_succ]

theorem create_particles_witness :
    (create_particles.map NamedCollection.particles)[0]?.bind (fun l => l[10]?) =
      some ⟨10, ⟨⟨0, (10 : ℚ) / 10⟩, ⟨1 / 4, 0⟩, 1 / 10, 3 / 20, 1⟩⟩ :=
  create_particles_initial_collections.2.2 10 (by norm_num)

end InletOutlet
